import Mathlib

/-!
Formal model of the gray_crab bulk-synchronization core.

The definitions below are a shallow embedding of the TypeScript sources
`src/services/storeService.ts` and `src/services/productService.ts`:

* timing is modelled by passing explicit timestamps (rationals, milliseconds);
  `setTimeout` delays are behaviourally irrelevant and dropped;
* remote HTTP/GraphQL calls are modelled by environment functions that assign
  to each call index the response (or thrown error) the remote side produces;
* JavaScript numbers are modelled by `ℚ` for the token bucket and by exact
  `ℕ` fraction pairs for the orchestrator success rates (see `rateEqOne`),
  JS strings by `String`, JS `Map` by an insertion-ordered association list
  with in-place update.
-/

/-! ### Generic helpers: JS `String.prototype.includes` / `startsWith`,
array chunking (`slice` loops), and insertion-ordered maps. -/

def charListStartsWith : List Char → List Char → Bool
  | [], _ => true
  | _ :: _, [] => false
  | p :: ps, c :: cs => p == c && charListStartsWith ps cs

def charListContains : List Char → List Char → Bool
  | pat, [] => charListStartsWith pat []
  | pat, c :: cs => charListStartsWith pat (c :: cs) || charListContains pat cs

/-- JS `s.includes(pat)`. -/
def strContains (s pat : String) : Bool := charListContains pat.toList s.toList

/-- JS `s.startsWith(pat)`. -/
def strStartsWith (s pat : String) : Bool := charListStartsWith pat.toList s.toList

/-- Splits a list into consecutive chunks, mirroring the
`for (let i = 0; i < xs.length; i += n) xs.slice(i, i + n)` loop pattern.
The fuel argument is the length of the remaining list; the chunk width is
`max 1 n` (in the source `n ≥ 1` always holds at these loops). -/
def chunksOfAux (n : ℕ) : ℕ → List α → List (List α)
  | 0, _ => []
  | _, [] => []
  | fuel + 1, l => l.take (max 1 n) :: chunksOfAux n fuel (l.drop (max 1 n))

def chunksOf (n : ℕ) (l : List α) : List (List α) := chunksOfAux n l.length l

/-- JS `Map.get` for a string map, `none` when absent.  A JS `Map` keeps its
keys unique, so updating the first occurrence of a key is updating its only
occurrence; the helpers below are therefore written by structural recursion
on the entry list. -/
def lookupStr (m : List (String × String)) (k : String) : Option String :=
  match m with
  | [] => none
  | kv :: rest => if kv.1 == k then some kv.2 else lookupStr rest k

/-- JS `map.get(k) || d`. -/
def lookupStrD (m : List (String × String)) (k d : String) : String :=
  (lookupStr m k).getD d

/-- JS `Map.set`: replace the entry in place when the key exists (keys stay
unique and keep their insertion position), otherwise append. -/
def assocSet (m : List (String × String)) (k v : String) : List (String × String) :=
  match m with
  | [] => [(k, v)]
  | kv :: rest => if kv.1 == k then (kv.1, v) :: rest else kv :: assocSet rest k v

/-- JS `errorMap.set(e, (errorMap.get(e) || 0) + 1)` on a `Map<string, number>`. -/
def bump (m : List (String × ℕ)) (e : String) : List (String × ℕ) :=
  match m with
  | [] => [(e, 1)]
  | kv :: rest => if kv.1 == e then (kv.1, kv.2 + 1) :: rest else kv :: bump rest e

/-- The count held for key `e` (0 when absent). -/
def lookupNat (m : List (String × ℕ)) (e : String) : ℕ :=
  match m with
  | [] => 0
  | kv :: rest => if kv.1 == e then kv.2 else lookupNat rest e

/-- Folding `bump` over a list of error messages: exactly how the error
summary `Map` is filled in `productService.ts`. -/
def groupCounts (ms : List String) : List (String × ℕ) := ms.foldl bump []

/-! ### Token-Bucket Limiter (`StoreService.tokenBucket` / `consumeToken`,
storeService.ts lines 13-77).

`consumeToken` first lazily refills the bucket from the elapsed wall-clock
time, then either debits the cost (when enough tokens are available) or
sleeps and zeroes the bucket.  The executor (`makeRequest`) additionally
mutates the shared bucket: it forces `tokens = 0` and rewrites `refillRate`
in its throttling branches; those mutations are modelled as explicit
operations. -/

structure TokenBucket where
  tokens : ℚ
  lastRefill : ℚ
  maxTokens : ℚ
  refillRate : ℚ

/-- The initial bucket of `StoreService`: 30 tokens, capacity 30, refill 1/s.
`lastRefill` (`Date.now()` at construction) is normalized to 0. -/
def initialTokenBucket : TokenBucket :=
  { tokens := 30, lastRefill := 0, maxTokens := 30, refillRate := 1 }

/-- `StoreService.consumeToken(cost)`.  `now` is `Date.now()` at entry and
`nowAfter` is `Date.now()` after the self-imposed wait in the else branch
(the wait itself is behaviourally a no-op in the model). -/
def consumeTokenModel (b : TokenBucket) (cost now nowAfter : ℚ) : TokenBucket :=
  let elapsedSeconds := (now - b.lastRefill) / 1000
  let t := min b.maxTokens (b.tokens + elapsedSeconds * b.refillRate)
  if cost ≤ t then
    { b with tokens := t - cost, lastRefill := now }
  else
    { b with tokens := 0, lastRefill := nowAfter }

/-- One operation on the shared bucket: a `consumeToken` call, or one of the
executor's adjustments (`tokenBucket.tokens = 0`, `tokenBucket.refillRate = r`). -/
inductive BucketOp
  | consume (cost now nowAfter : ℚ)
  | forceEmpty
  | setRefillRate (r : ℚ)

def applyBucketOp (b : TokenBucket) : BucketOp → TokenBucket
  | .consume cost now nowAfter => consumeTokenModel b cost now nowAfter
  | .forceEmpty => { b with tokens := 0 }
  | .setRefillRate r => { b with refillRate := r }

def applyBucketOps (b : TokenBucket) (ops : List BucketOp) : TokenBucket :=
  ops.foldl applyBucketOp b

/-- Every `consumeToken` call in the source passes `cost = 1`; the model only
needs the cost to be non-negative. -/
def bucketOpCostOk : BucketOp → Prop
  | .consume cost _ _ => 0 ≤ cost
  | _ => True

/-! ### Resilient Request Executor (`StoreService.makeRequest`,
storeService.ts lines 79-169).

An attempt's outcome is scripted: the environment is the finite list of
responses the remote side would give to successive attempts.  A successful
response is abstracted to an opaque tag (the function returns it unchanged;
its rate-limit-header inspection only mutates the shared bucket, which is
modelled by `BucketOp`).  A thrown error carries the fields the classifier
reads. -/

/-- One entry of `error.response.data.errors` as read by the throttle check. -/
structure GqlErrEntry where
  message : String
  extCode : Option String
deriving DecidableEq

/-- A thrown JS error, with the fields `makeRequest` and the service-level
`catch` blocks inspect. -/
structure JsError where
  isAxiosError : Bool
  status : Option ℕ
  gqlErrors : List GqlErrEntry
  code : Option String
  message : String
deriving DecidableEq

/-- An `Error` built with `new Error(msg)` (not an axios error). -/
def plainJsError (msg : String) : JsError :=
  { isAxiosError := false, status := none, gqlErrors := [], code := none, message := msg }

/-- `isThrottled` in `makeRequest`: HTTP 429, or a GraphQL error entry with
message "Throttled" or extensions code "THROTTLED" (both gated on
`axios.isAxiosError`). -/
def isThrottledError (e : JsError) : Bool :=
  (e.isAxiosError && e.status == some 429) ||
    (e.isAxiosError && e.gqlErrors.any (fun g =>
      g.message == "Throttled" || g.extCode == some ("THROTTLED")))

/-- The transient-retry guard in `makeRequest`: `ECONNABORTED`, `ETIMEDOUT`,
or a 5xx response status (gated on `axios.isAxiosError`). -/
def isRetryableTransientError (e : JsError) : Bool :=
  e.isAxiosError &&
    (e.code == some ("ECONNABORTED") || e.code == some ("ETIMEDOUT") ||
      (match e.status with
       | some st => decide (500 ≤ st)
       | none => false))

/-- The scripted outcome of one `axios.post` attempt. -/
inductive Attempt
  | success (v : ℕ)
  | failure (e : JsError)

/-- The observable result of `makeRequest`: the response, or the raised error
(`raised none` would be a raised undefined `lastError`, unreachable when at
least one attempt runs). -/
inductive ReqResult
  | ok (v : ℕ)
  | raised (e : Option JsError)
deriving DecidableEq

/-- The retry loop of `makeRequest`.  Returns the result (`none` when the
script is exhausted while the loop would keep running) together with the
trace of the throttling backoff waits (ms) it computed, in order.  A
throttled failure increments and then decrements `retryCount` (net zero);
a transient failure increments it; any other error is raised at once. -/
def makeRequestGo (retries : ℕ) :
    List Attempt → ℕ → Option JsError → List ℕ → Option ReqResult × List ℕ
  | script, retryCount, lastError, waits =>
    if retries < retryCount then (some (.raised lastError), waits)
    else
      match script with
      | [] => (none, waits)
      | .success v :: _ => (some (.ok v), waits)
      | .failure e :: rest =>
        let rc1 := retryCount + 1
        if isThrottledError e then
          makeRequestGo retries rest (rc1 - 1) (some e)
            (waits ++ [2 ^ (rc1 + 2) * 1000])
        else if isRetryableTransientError e then
          makeRequestGo retries rest rc1 (some e) waits
        else (some (.raised (some e)), waits)

/-- `makeRequest(url, data, retries, timeout)` on a scripted remote. -/
def makeRequestModel (script : List Attempt) (retries : ℕ) :
    Option ReqResult × List ℕ :=
  makeRequestGo retries script 0 none []

/-! ### Batched GraphQL mutation execution
(`StoreService.updateProductSalesChannels` / `updateGoogleAttributes` share
this structure: build the list of aliased mutations, slice it into batches of
5, send each batch through `makeRequest`, throw on `response.data.errors` or
on the first alias with user errors).

The per-batch environment gives the result of the `makeRequest` call for each
batch index: either the thrown error, or the response, described by its
`data.errors` (first message when present) and, per alias index, the first
user-error message when present. -/

structure GqlResp where
  gqlErrors : Option String
  userErr : ℕ → Option String

/-- The first alias (among `m0 .. m(len-1)`) reporting a user error. -/
def firstUserError (resp : GqlResp) (len : ℕ) : Option String :=
  (List.range len).findSome? resp.userErr

/-- The batch loop shared by the two update methods.  Returns the outcome and
the number of `makeRequest` calls issued. -/
def runMutationBatches (env : ℕ → Except JsError GqlResp) :
    List (List α) → ℕ → Except JsError Unit × ℕ
  | [], _ => (.ok (), 0)
  | b :: rest, k =>
    match env k with
    | .error e => (.error e, 1)
    | .ok resp =>
      match resp.gqlErrors with
      | some m => (.error (plainJsError ("GraphQL error: " ++ m)), 1)
      | none =>
        match firstUserError resp b.length with
        | some msg => (.error (plainJsError ("Mutation error: " ++ msg)), 1)
        | none =>
          let r := runMutationBatches env rest (k + 1)
          (r.1, r.2 + 1)

/-- `undefined`-tolerant rendering of `error.response?.status` inside a JS
template literal. -/
def optStatusStr : Option ℕ → String
  | some st => toString st
  | none => "undefined"

/-! ### Sales-channel mutations
(`StoreService.updateProductSalesChannels`, storeService.ts lines 343-456). -/

/-- One aliased sub-mutation: `publishablePublish` or `publishableUnpublish`
for a product on a publication. -/
inductive ChMutation
  | publish (gqlProductId publicationId : String)
  | unpublish (gqlProductId publicationId : String)
deriving DecidableEq

/-- Product-ID normalization at the head of `updateProductSalesChannels`. -/
def normalizeProductGid (productId : String) : String :=
  if strStartsWith productId ("gid://shopify/Product/") then productId
  else ("gid://shopify/Product/" ++ productId)

/-- The mutation list built by iterating the publication map
(`for (const [channelName, publicationId] of publicationMap.entries())`):
one publish/unpublish per publication, chosen by
`salesChannels.includes(channelName)`. -/
def buildChannelMutations (gqlProductId : String)
    (pubMap : List (String × String)) (salesChannels : List String) :
    List ChMutation :=
  pubMap.map (fun np =>
    if salesChannels.contains np.1 then .publish gqlProductId np.2
    else .unpublish gqlProductId np.2)

/-- `StoreService.updateProductSalesChannels(productId, salesChannels)`.
On success the source returns `{ id: productId }`; the model returns the id.
The outer `catch` re-wraps any thrown error (axios errors additionally render
the response status). -/
def updateProductSalesChannelsModel (env : ℕ → Except JsError GqlResp)
    (pubMap : List (String × String)) (productId : String)
    (salesChannels : List String) : Except String String :=
  let mutations := buildChannelMutations (normalizeProductGid productId) pubMap salesChannels
  match (runMutationBatches env (chunksOf 5 mutations) 0).1 with
  | .ok _ => .ok productId
  | .error e =>
    if e.isAxiosError then
      .error ("Failed to update product sales channels: " ++ e.message ++
        ". Status: " ++ optStatusStr e.status)
    else
      .error ("Failed to update product sales channels: " ++ e.message)

/-! ### Catalog-wide bulk start
(`StoreService.bulkUpdateSalesChannels`, storeService.ts lines 458-537). -/

/-- The response of the `bulkOperationRunQuery` submission, as inspected by
the source: `data.errors` (first message when present) and the operation id
(`none` models a response missing the
`data.bulkOperationRunQuery.bulkOperation` structure). -/
structure BulkSubmitResp where
  gqlErrors : Option String
  operationId : Option String

def joinChannels (chans : List String) : String := String.intercalate (", ") chans

/-- `StoreService.bulkUpdateSalesChannels(salesChannels)`: filter the
requested channels through the publication map, fail when none is
recognized, otherwise submit the bulk job.  Returns the operation id and the
user-visible message. -/
def storeBulkUpdateSalesChannelsModel (submit : Except JsError BulkSubmitResp)
    (pubMap : List (String × String)) (salesChannels : List String) :
    Except String (String × String) :=
  let inner : Except JsError (String × String) :=
    let pubIds := (salesChannels.filter (fun c => (pubMap.map Prod.fst).contains c)).map
      (fun c => lookupStrD pubMap c (""))
    if pubIds.length = 0 then
      .error (plainJsError ("No valid publication IDs found for channels: " ++
        joinChannels salesChannels))
    else
      match submit with
      | .error e => .error e
      | .ok r =>
        match r.gqlErrors with
        | some m => .error (plainJsError ("GraphQL error: " ++ m))
        | none =>
          match r.operationId with
          | none => .error (plainJsError
              ("Bulk operation failed: Unexpected response structure from Shopify API"))
          | some oid => .ok (oid,
              "Started bulk operation " ++ oid ++
              " to get all products. Once completed, call the process-bulk-operation endpoint with this operation ID to publish products to channels: " ++
              joinChannels salesChannels)
  match inner with
  | .ok p => .ok p
  | .error e => .error ("Failed to start bulk update operation: " ++ e.message)

/-- `true` exactly when the scripted submission both succeeds at the wire
level and carries a well-formed `bulkOperation` structure. -/
def submitOutcomeOk (submit : Except JsError BulkSubmitResp) : Bool :=
  match submit with
  | .error _ => false
  | .ok r => r.gqlErrors.isNone && r.operationId.isSome

/-! ### Bulk-operation result stream
(`StoreService.processBulkOperationForSalesChannels`, storeService.ts
lines 562-579).

Each line of the downloaded JSONL stream either fails `JSON.parse` (the
`catch` logs and continues) or parses to a record; `record (some gid)` is a
record whose `id` field holds the string `gid` (`record none`: no id field).
`JSON.parse` itself is an external library call, modelled by its outcome. -/

inductive BulkResultLine
  | malformed
  | record (idField : Option String)

/-- `gid.split('/').pop()`: the (possibly empty) substring after the last
slash, the whole string when no slash occurs. -/
def lastGidSegment (gid : String) : String :=
  String.mk ((gid.toList.reverse.takeWhile (fun c => !(c == '/'))).reverse)

/-- The per-line loop: skip malformed lines, and for each parsed record with
a truthy `id` (JS `if (product.id)` — the empty string is falsy) push the
numeric tail of the gid. -/
def extractBulkProductIds : List BulkResultLine → List String
  | [] => []
  | .malformed :: rest => extractBulkProductIds rest
  | .record none :: rest => extractBulkProductIds rest
  | .record (some gid) :: rest =>
    if gid = "" then extractBulkProductIds rest
    else lastGidSegment gid :: extractBulkProductIds rest

/-- A well-formed line carrying an `id` field (of any value). -/
def hasIdField : BulkResultLine → Bool
  | .record (some _) => true
  | _ => false

/-- A well-formed line whose `id` field is JS-truthy (non-empty). -/
def hasTruthyIdField : BulkResultLine → Bool
  | .record (some gid) => !(gid == "")
  | _ => false

/-! ### Google attribute mutations
(`StoreService.updateGoogleAttributes`, storeService.ts lines 743-892). -/

/-- The fixed attribute record (`GoogleProductAttributes` in
`types/product.ts`). -/
structure GoogleProductAttributes where
  category : String
  color : String
  size : String
  gender : String
  ageGroup : String
deriving DecidableEq

/-- `Object.entries(attributes)` in the field order of the object literal. -/
def attrEntries (a : GoogleProductAttributes) : List (String × String) :=
  [("category", a.category), ("color", a.color), ("size", a.size),
    ("gender", a.gender), ("ageGroup", a.ageGroup)]

/-- A metafield input as assembled in the source. -/
structure Metafield where
  mfNamespace : String
  key : String
  value : String
  mfType : String
deriving DecidableEq

/-- `entityId.includes('gid://shopify/ProductVariant/')`. -/
def isVariantEntityId (entityId : String) : Bool :=
  strContains entityId ("gid://shopify/ProductVariant/")

/-- The gid normalization at the head of `updateGoogleAttributes`. -/
def normalizeGoogleGid (entityId : String) : String :=
  if !isVariantEntityId entityId && !strContains entityId ("gid://shopify/Product/") then
    "gid://shopify/Product/" ++ entityId
  else entityId

/-- The attribute loop: skip empty values; for variants additionally skip the
key `google_product_category`; otherwise build a `mm-google-shopping`
metafield input. -/
def buildGoogleMetafields (isVar : Bool) (a : GoogleProductAttributes) :
    List Metafield :=
  (attrEntries a).filterMap (fun kv =>
    if kv.2 = "" then none
    else if isVar && kv.1 == "google_product_category" then none
    else some { mfNamespace := "mm-google-shopping", key := kv.1,
                value := kv.2, mfType := "single_line_text_field" })

/-- A `productUpdate` / `productVariantUpdate` mutation document. -/
inductive GMutation
  | productUpdate (gqlId : String) (metafields : List Metafield)
  | productVariantUpdate (gqlId : String) (metafields : List Metafield)
deriving DecidableEq

/-- The mutation list of `updateGoogleAttributes`: one `productUpdate` (resp.
`productVariantUpdate`) carrying all collected metafields, or nothing at all
when every attribute value was skipped. -/
def buildGoogleMutations (entityId : String) (a : GoogleProductAttributes) :
    List GMutation :=
  let isVar := isVariantEntityId entityId
  let gqlId := normalizeGoogleGid entityId
  let mfs := buildGoogleMetafields isVar a
  if !isVar && mfs.length > 0 then [.productUpdate gqlId mfs]
  else if isVar && mfs.length > 0 then [.productVariantUpdate gqlId mfs]
  else []

/-- `StoreService.updateGoogleAttributes(entityId, attributes)`: result
together with the number of `makeRequest` calls issued.  When no mutation
was built the source returns `true` before entering the batch loop. -/
def updateGoogleAttributesModel (env : ℕ → Except JsError GqlResp)
    (entityId : String) (a : GoogleProductAttributes) :
    Except String Bool × ℕ :=
  let mutations := buildGoogleMutations entityId a
  if mutations.length = 0 then (.ok true, 0)
  else
    let r := runMutationBatches env (chunksOf 5 mutations) 0
    match r.1 with
    | .ok _ => (.ok true, r.2)
    | .error e =>
      if e.isAxiosError then
        (.error ("Failed to update Google attributes: " ++ e.message), r.2)
      else
        (.error ("Failed to update Google attributes"), r.2)

/-! ### Adaptive bulk orchestrator
(`ProductService.bulkUpdateSalesChannels`, productService.ts lines 15-199,
and `ProductService.bulkUpdateGoogleAttributes`, lines 201-385 — the two
bodies are identical except for the per-entity call and the message text).

The per-entity update is a function of the global call index (each element of
`productIds` is dispatched exactly once, in list order) and the id; it
returns `()` on promise resolution and the error message on rejection. -/

/-- A batch success rate, kept as the exact pair (successes, total).  The
source stores the IEEE-double `successes / total` (0 when the total is 0)
and compares it against the literals 1.0, 0.5 and 0.9; for totals up to the
batch size 10 those double comparisons agree exactly with the rational
comparisons below (cross-multiplied, with the 0-total case following the
`total > 0 ? s / total : 0` ternary). -/
def rateEqOne (r : ℕ × ℕ) : Bool := r.1 == r.2 && !(r.2 == 0)

/-- `rate < 0.5`. -/
def rateLtHalf (r : ℕ × ℕ) : Bool :=
  if r.2 == 0 then true else decide (2 * r.1 < r.2)

/-- `rate > 0.9`. -/
def rateGtNineTenths (r : ℕ × ℕ) : Bool :=
  if r.2 == 0 then false else decide (9 * r.2 < 10 * r.1)

structure OrchState where
  updated : List String
  failed : List String
  errors : List (String × String)
  mc : ℕ
  cs : ℕ
  cf : ℕ
  lastRate : ℕ × ℕ
  callIdx : ℕ
  mcTrace : List ℕ
  rateTrace : List (ℕ × ℕ)

/-- `maxConcurrent = 2`, both streak counters 0,
`lastBatchSuccessRate = 1.0`. -/
def initOrchState : OrchState :=
  { updated := [], failed := [], errors := [], mc := 2, cs := 0, cf := 0,
    lastRate := (1, 1), callIdx := 0, mcTrace := [], rateTrace := [] }

/-- The error message contains one of the throttling markers
(`errorMessage.includes('Throttled') || errorMessage.includes('THROTTLED')`;
the source reads the message back from `productErrors`, which was set to this
very message one statement earlier). -/
def throttleMarker (msg : String) : Bool :=
  strContains msg ("Throttled") || strContains msg ("THROTTLED")

/-- The `results.forEach` body: push the id into `updatedProducts` or
`failedProducts`, record the error message, bump `consecutiveFailures` on a
throttling failure, and count the sub-batch successes/failures. -/
def recordStep (acc : OrchState × ℕ × ℕ) (pr : String × Except String Unit) :
    OrchState × ℕ × ℕ :=
  match pr.2 with
  | .ok _ =>
    ({ acc.1 with updated := acc.1.updated ++ [pr.1] }, acc.2.1 + 1, acc.2.2)
  | .error msg =>
    let st := { acc.1 with
      failed := acc.1.failed ++ [pr.1]
      errors := assocSet acc.1.errors pr.1 msg }
    let st := if throttleMarker msg then { st with cf := st.cf + 1 } else st
    (st, acc.2.1, acc.2.2 + 1)

/-- Dispatch one concurrent sub-batch (`concurrentBatch.map` +
`Promise.all` + `results.forEach`).  Returns the state and the sub-batch
success/failure counts. -/
def processChunk (update : ℕ → String → Except String Unit)
    (st : OrchState) (chunk : List String) : OrchState × ℕ × ℕ :=
  let results := chunk.enum.map (fun p => (p.2, update (st.callIdx + p.1) p.2))
  results.foldl recordStep
    ({ st with callIdx := st.callIdx + chunk.length }, 0, 0)

/-- The inner `for (let j = 0; j < batch.length; j += maxConcurrent)` loop;
`maxConcurrent` is not modified inside the batch.  Accumulates the
batch-level success/failure counts. -/
def processBatch (update : ℕ → String → Except String Unit)
    (st : OrchState) (batch : List String) : OrchState × ℕ × ℕ :=
  (chunksOf st.mc batch).foldl
    (fun acc chunk =>
      let r := processChunk update acc.1 chunk
      (r.1, acc.2.1 + r.2.1, acc.2.2 + r.2.2))
    (st, 0, 0)

/-- The concurrency adjustment at the top of each batch iteration. -/
def adjustConcurrency (st : OrchState) : OrchState :=
  if 2 ≤ st.cf then { st with mc := max 1 (st.mc - 1), cf := 0 }
  else if 3 ≤ st.cs ∧ rateGtNineTenths st.lastRate = true ∧ st.mc < 3 then
    { st with mc := st.mc + 1, cs := 0 }
  else st

/-- The streak update after a batch completes
(`lastBatchSuccessRate === 1.0` / `< 0.5`). -/
def updateStreaks (st : OrchState) (rate : ℕ × ℕ) : OrchState :=
  if rateEqOne rate then { st with cs := st.cs + 1, cf := 0 }
  else if rateLtHalf rate then { st with cf := st.cf + 1, cs := 0 }
  else st

/-- One iteration of the outer batch loop: adjust concurrency, process the
batch, compute the batch success rate, update the streak counters.  The
adjusted `maxConcurrent` and the batch rate are also recorded in ghost
traces. -/
def batchStep (update : ℕ → String → Except String Unit)
    (st : OrchState) (batch : List String) : OrchState :=
  let st := adjustConcurrency st
  let st := { st with mcTrace := st.mcTrace ++ [st.mc] }
  let r := processBatch update st batch
  let st1 := r.1
  let total := r.2.1 + r.2.2
  let rate : ℕ × ℕ := (r.2.1, total)
  let st2 := { st1 with lastRate := rate, rateTrace := st1.rateTrace ++ [rate] }
  updateStreaks st2 rate

/-- The value returned by the orchestrator (the ghost traces of the adjusted
concurrency and batch rates are carried along for the analysis). -/
structure OrchOutcome where
  success : Bool
  message : String
  updatedProducts : List String
  failedProducts : List String
  productErrors : List (String × String)
  errorMap : List (String × ℕ)
  mcTrace : List ℕ
  rateTrace : List (ℕ × ℕ)

/-- `'Error summary:\n' + entries.map(...).join('\n')`. -/
def renderErrorSummary (em : List (String × ℕ)) : String :=
  "Error summary:\n" ++ String.intercalate ("\n")
    (em.map (fun ec => "- " ++ ec.1 ++ ": " ++ toString ec.2 ++ " products"))

/-- The final message of the orchestrator (`google` selects the
`bulkUpdateGoogleAttributes` wording). -/
def mkBulkMessage (google : Bool) (nUpd nFail : ℕ) (summary : String) : String :=
  if nFail = 0 then ("All products updated successfully")
  else
    "Updated " ++ toString nUpd ++ " products" ++
      (if google then (" with Google attributes") else ("")) ++ ", " ++
      toString nFail ++ " products failed. " ++ summary

/-- The orchestrator: batches of 10, adaptive concurrency, error summary. -/
def runOrch (google : Bool) (update : ℕ → String → Except String Unit)
    (productIds : List String) : OrchOutcome :=
  let st := (chunksOf 10 productIds).foldl (batchStep update) initOrchState
  let em := st.failed.foldl (fun m id => bump m (lookupStrD st.errors id ("Unknown error"))) []
  let summary := if st.failed = [] then ("") else renderErrorSummary em
  { success := st.failed.isEmpty
    message := mkBulkMessage google st.updated.length st.failed.length summary
    updatedProducts := st.updated
    failedProducts := st.failed
    productErrors := st.errors
    errorMap := em
    mcTrace := st.mcTrace
    rateTrace := st.rateTrace }

/-- `ProductService.bulkUpdateSalesChannels({productIds, salesChannels})`,
composed with the per-entity `StoreService.updateProductSalesChannels`.
`env i` scripts the `makeRequest` outcomes of the `i`-th per-entity call. -/
def bulkUpdateSalesChannelsModel (env : ℕ → ℕ → Except JsError GqlResp)
    (pubMap : List (String × String)) (salesChannels : List String)
    (productIds : List String) : OrchOutcome :=
  runOrch false
    (fun i id =>
      match updateProductSalesChannelsModel (env i) pubMap id salesChannels with
      | .ok _ => .ok ()
      | .error m => .error m)
    productIds

/-- `ProductService.bulkUpdateGoogleAttributes({productIds, attributes})`,
composed with the per-entity `StoreService.updateGoogleAttributes`. -/
def bulkUpdateGoogleAttributesModel (env : ℕ → ℕ → Except JsError GqlResp)
    (attributes : GoogleProductAttributes) (productIds : List String) :
    OrchOutcome :=
  runOrch true
    (fun i id =>
      match (updateGoogleAttributesModel (env i) id attributes).1 with
      | .ok _ => .ok ()
      | .error m => .error m)
    productIds

/-! ### Specification predicates and concrete inputs used in the analysis. -/

/-- `Except.isOk` as a plain boolean. -/
def exceptIsOk : Except ε α → Bool
  | .ok _ => true
  | .error _ => false

/-- The partition property of a bulk run: updated and failed cover exactly
the input ids, are disjoint, and each input id lands in exactly one of them. -/
def PartitionSpec (ids : List String) (out : OrchOutcome) : Prop :=
  (∀ x, (x ∈ out.updatedProducts ∨ x ∈ out.failedProducts) ↔ x ∈ ids) ∧
  (∀ x, ¬(x ∈ out.updatedProducts ∧ x ∈ out.failedProducts)) ∧
  (∀ x ∈ ids, out.updatedProducts.count x + out.failedProducts.count x = 1)

/-- The reporting property of a bulk run: the success flag is the emptiness
of `failedProducts`; the message is built from the rendered error summary
whenever failures exist; the summary map has pairwise-distinct error
messages as keys, and holds, for every message, exactly the number of failed
products recorded with that message. -/
def ErrorReportSpec (google : Bool) (out : OrchOutcome) : Prop :=
  (out.success = true ↔ out.failedProducts = []) ∧
  out.message = mkBulkMessage google out.updatedProducts.length
    out.failedProducts.length
    (if out.failedProducts = [] then ("") else renderErrorSummary out.errorMap) ∧
  (out.errorMap.map Prod.fst).Nodup ∧
  (∀ e c, (e, c) ∈ out.errorMap ↔ 0 < c ∧
    c = (out.failedProducts.map
      (fun id => lookupStrD out.productErrors id ("Unknown error"))).count e)

/-- What `maxConcurrent` actually does over a run: every per-batch value lies
in `[1, 3]`; the first batch runs at 2; and between consecutive batches the
value either stays, drops by 1 (floored at 1), or — only below the cap 3 —
rises by 1. -/
def McSpec (out : OrchOutcome) : Prop :=
  (∀ m ∈ out.mcTrace, 1 ≤ m ∧ m ≤ 3) ∧
  (∀ m ∈ out.mcTrace.head?, m = 2) ∧
  out.mcTrace.Chain' (fun a b => b = a ∨ b = max 1 (a - 1) ∨ (b = a + 1 ∧ a < 3))

/-- An `AttributeSet` whose values are all blank. -/
def blankAttrs : GoogleProductAttributes :=
  { category := "", color := "", size := "", gender := "", ageGroup := "" }

/-- A transient axios error (connection abort). -/
def transientErr : JsError :=
  { isAxiosError := true, status := none, gqlErrors := [],
    code := some ("ECONNABORTED"), message := "timeout of 30000ms exceeded" }

/-- A GraphQL response with neither wire-level errors nor user errors. -/
def cleanResp : GqlResp := { gqlErrors := none, userErr := fun _ => none }

/-- A GraphQL response whose payload carries a "Throttled" error. -/
def throttledResp : GqlResp := { gqlErrors := some ("Throttled"), userErr := fun _ => none }

/-- A one-publication publication map. -/
def onePubMap : List (String × String) :=
  [("Online Store", "gid://shopify/Publication/1")]

/-- Eleven product ids: one full batch of 10 and a trailing batch of 1. -/
def elevenIds : List String :=
  ["p01", "p02", "p03", "p04", "p05", "p06", "p07", "p08", "p09", "p10", "p11"]

/-- A remote that answers the first two per-entity calls with an in-payload
"Throttled" GraphQL error and every later call cleanly. -/
def twoThrottledEnv : ℕ → ℕ → Except JsError GqlResp :=
  fun i _ => if i < 2 then .ok throttledResp else .ok cleanResp

/-- A remote whose per-entity calls always succeed. -/
def allOkEnv : ℕ → ℕ → Except JsError GqlResp := fun _ _ => .ok cleanResp

/-- A remote whose `i`-th per-entity call fails with a plain error naming
`i` when `i < 1`, used to exercise the failure reporting. -/
def oneFailEnv : ℕ → ℕ → Except JsError GqlResp :=
  fun i _ => if i = 0 then .ok { gqlErrors := some ("boom"), userErr := fun _ => none }
    else .ok cleanResp

/-- The downloaded JSONL stream used against C9: a good record, a malformed
line, and a well-formed record whose `id` field is the empty string. -/
def demoBulkLines : List BulkResultLine :=
  [.record (some ("gid://shopify/Product/1")), .malformed, .record (some (""))]

/-- A bucket-operation script exercising a consume, the executor adjustments,
and a consume occurring after a backwards clock jump. -/
def demoBucketOps : List BucketOp :=
  [.consume 1 0 0, .forceEmpty, .setRefillRate (1 / 5),
    .consume 1 5000 5200, .consume 1 2000 2100]

/-! ## Theorems -/

/-! ### Token bucket (C2) -/

theorem bucket_step_invariant (b : TokenBucket) (op : BucketOp)
    (h0 : 0 ≤ b.tokens) (h1 : b.tokens ≤ b.maxTokens) (hop : bucketOpCostOk op) :
    0 ≤ (applyBucketOp b op).tokens ∧
      (applyBucketOp b op).tokens ≤ (applyBucketOp b op).maxTokens := by
  cases op with
  | consume cost now nowAfter =>
    simp only [bucketOpCostOk] at hop
    simp only [applyBucketOp, consumeTokenModel]
    split
    case isTrue h =>
      constructor
      · simpa using sub_nonneg.mpr h
      · simp only
        have hmin : min b.maxTokens (b.tokens + (now - b.lastRefill) / 1000 * b.refillRate)
            ≤ b.maxTokens := min_le_left _ _
        linarith
    case isFalse h =>
      constructor
      · simp
      · simpa using le_trans h0 h1
  | forceEmpty =>
    refine ⟨le_refl 0, ?_⟩
    simpa [applyBucketOp] using le_trans h0 h1
  | setRefillRate r =>
    exact ⟨h0, h1⟩

theorem bucket_fold_invariant (ops : List BucketOp) :
    ∀ (b : TokenBucket), 0 ≤ b.tokens → b.tokens ≤ b.maxTokens →
      (∀ op ∈ ops, bucketOpCostOk op) →
      0 ≤ (applyBucketOps b ops).tokens ∧
        (applyBucketOps b ops).tokens ≤ (applyBucketOps b ops).maxTokens := by
  induction ops with
  | nil =>
    intro b h0 h1 _
    exact ⟨h0, h1⟩
  | cons op rest ih =>
    intro b h0 h1 hops
    have hstep := bucket_step_invariant b op h0 h1 (hops op (by simp))
    have := ih (applyBucketOp b op) hstep.1 hstep.2 (fun o ho => hops o (by simp [ho]))
    simpa [applyBucketOps] using this

/-- C2: for every sequence of `consumeToken` calls and interleaved executor
adjustments (forcing the tokens to zero, rewriting the refill rate) starting
from the constructor's bucket, the token count satisfies
`0 ≤ tokens ≤ maxTokens` after every operation: the state after any prefix
of the operation sequence obeys both bounds. -/
theorem claim_C2_token_bucket_bounds (ops pre suf : List BucketOp)
    (hsplit : ops = pre ++ suf) (hcost : ∀ op ∈ ops, bucketOpCostOk op) :
    0 ≤ (applyBucketOps initialTokenBucket pre).tokens ∧
      (applyBucketOps initialTokenBucket pre).tokens ≤
        (applyBucketOps initialTokenBucket pre).maxTokens := by
  refine bucket_fold_invariant pre initialTokenBucket (by norm_num [initialTokenBucket])
    (by norm_num [initialTokenBucket]) ?_
  intro op hop
  exact hcost op (by simp [hsplit, hop])

theorem claim_C2_token_bucket_bounds_witness :
    demoBucketOps = [BucketOp.consume 1 0 0, BucketOp.forceEmpty] ++
      [BucketOp.setRefillRate (1 / 5), BucketOp.consume 1 5000 5200,
        BucketOp.consume 1 2000 2100] ∧
    (∀ op ∈ demoBucketOps, bucketOpCostOk op) ∧
    (0 ≤ (applyBucketOps initialTokenBucket
        [BucketOp.consume 1 0 0, BucketOp.forceEmpty]).tokens ∧
      (applyBucketOps initialTokenBucket
        [BucketOp.consume 1 0 0, BucketOp.forceEmpty]).tokens ≤
        (applyBucketOps initialTokenBucket
          [BucketOp.consume 1 0 0, BucketOp.forceEmpty]).maxTokens) := by
  have hcost : ∀ op ∈ demoBucketOps, bucketOpCostOk op := by
    intro op hop
    fin_cases hop <;> simp [bucketOpCostOk]
  exact ⟨rfl, hcost,
    claim_C2_token_bucket_bounds demoBucketOps
      [BucketOp.consume 1 0 0, BucketOp.forceEmpty]
      [BucketOp.setRefillRate (1 / 5), BucketOp.consume 1 5000 5200,
        BucketOp.consume 1 2000 2100] rfl hcost⟩

/-! ### makeRequest retry classification (C3) and backoff (C4) -/

theorem makeRequestGo_throttled (e : JsError) (s : List Attempt) (rc retries : ℕ)
    (le : Option JsError) (ws : List ℕ) (hrc : rc ≤ retries)
    (he : isThrottledError e = true) :
    makeRequestGo retries (.failure e :: s) rc le ws =
      makeRequestGo retries s rc (some e) (ws ++ [2 ^ (rc + 3) * 1000]) := by
  have h : ¬ retries < rc := Nat.not_lt.mpr hrc
  simp only [makeRequestGo, h, if_false, he, if_true]
  norm_num

theorem makeRequestGo_transient (e : JsError) (s : List Attempt) (rc retries : ℕ)
    (le : Option JsError) (ws : List ℕ) (hrc : rc ≤ retries)
    (hthr : isThrottledError e = false) (htr : isRetryableTransientError e = true) :
    makeRequestGo retries (.failure e :: s) rc le ws =
      makeRequestGo retries s (rc + 1) (some e) ws := by
  have h : ¬ retries < rc := Nat.not_lt.mpr hrc
  simp [makeRequestGo, h, hthr, htr]

theorem makeRequestGo_fatal (e : JsError) (s : List Attempt) (rc retries : ℕ)
    (le : Option JsError) (ws : List ℕ) (hrc : rc ≤ retries)
    (hthr : isThrottledError e = false) (htr : isRetryableTransientError e = false) :
    makeRequestGo retries (.failure e :: s) rc le ws = (some (.raised (some e)), ws) := by
  have h : ¬ retries < rc := Nat.not_lt.mpr hrc
  simp [makeRequestGo, h, hthr, htr]

theorem makeRequestGo_exhausts (e : JsError)
    (hthr : isThrottledError e = false) (htr : isRetryableTransientError e = true) :
    ∀ (n rc retries : ℕ) (s : List Attempt) (ws : List ℕ), rc + n = retries + 1 →
      makeRequestGo retries (List.replicate n (.failure e) ++ s) rc (some e) ws =
        (some (.raised (some e)), ws) := by
  intro n
  induction n with
  | zero =>
    intro rc retries s ws hn
    have h : retries < rc := by omega
    simp [makeRequestGo.eq_def, h]
  | succ n ih =>
    intro rc retries s ws hn
    have hrc : rc ≤ retries := by omega
    rw [List.replicate_succ, List.cons_append,
      makeRequestGo_transient e _ rc retries _ ws hrc hthr htr]
    exact ih (rc + 1) retries s ws (by omega)

/-- C3 counterexample: with `maxRetries = 3`, three consecutive transient
failures do NOT cause the last error to be raised — the loop runs
`retries + 1` attempts, so a fourth attempt is made and succeeds.  The claim
"after maxRetries transient failures the last error is raised" therefore
fails at this input. -/
theorem claim_C3_counterexample :
    isThrottledError transientErr = false ∧
    isRetryableTransientError transientErr = true ∧
    (makeRequestModel [.failure transientErr, .failure transientErr,
      .failure transientErr, .success 7] 3).1 = some (.ok 7) :=
  ⟨by decide, by decide, by decide⟩

/-- C3 (amended): `makeRequest` classifies each failure: a throttled response
(HTTP 429 or an in-payload Throttled/THROTTLED GraphQL marker) is retried
without consuming the retry budget (the retry counter is unchanged); a
transient failure (timeout, connection abort, 5xx) is retried with the
counter incremented, and after `maxRetries + 1` consecutive transient
failures (the initial attempt plus `maxRetries` retries) the last error is
raised; a non-throttled non-transient error — in particular any other 4xx —
is raised immediately with no retry. -/
theorem claim_C3_retry_classification (e : JsError) (s : List Attempt)
    (rc retries : ℕ) (le : Option JsError) (ws : List ℕ) (hrc : rc ≤ retries) :
    (isThrottledError e = true →
      makeRequestGo retries (.failure e :: s) rc le ws =
        makeRequestGo retries s rc (some e) (ws ++ [2 ^ (rc + 3) * 1000])) ∧
    (isThrottledError e = false → isRetryableTransientError e = true →
      makeRequestGo retries (.failure e :: s) rc le ws =
        makeRequestGo retries s (rc + 1) (some e) ws ∧
      (makeRequestModel (List.replicate (retries + 1) (.failure e) ++ s) retries).1 =
        some (.raised (some e))) ∧
    (isThrottledError e = false → isRetryableTransientError e = false →
      makeRequestGo retries (.failure e :: s) rc le ws = (some (.raised (some e)), ws)) ∧
    (∀ st, e.status = some st → 400 ≤ st → st < 500 → st ≠ 429 →
      e.gqlErrors.any (fun g => g.message == "Throttled" ||
        g.extCode == some ("THROTTLED")) = false →
      e.code ≠ some ("ECONNABORTED") → e.code ≠ some ("ETIMEDOUT") →
      isThrottledError e = false ∧ isRetryableTransientError e = false ∧
      makeRequestModel (.failure e :: s) retries = (some (.raised (some e)), [])) := by
  refine ⟨?_, ?_, ?_, ?_⟩
  · intro he
    exact makeRequestGo_throttled e s rc retries le ws hrc he
  · intro hthr htr
    refine ⟨makeRequestGo_transient e s rc retries le ws hrc hthr htr, ?_⟩
    rw [List.replicate_succ, List.cons_append, makeRequestModel,
      makeRequestGo_transient e _ 0 retries none [] (Nat.zero_le _) hthr htr,
      makeRequestGo_exhausts e hthr htr retries 1 retries s [] (by omega)]
  · intro hthr htr
    exact makeRequestGo_fatal e s rc retries le ws hrc hthr htr
  · intro st hst h400 h500 h429 hgql hconn htime
    have h429b : (e.status == some 429) = false := by
      rw [hst]
      exact beq_eq_false_iff_ne.mpr (by simpa using h429)
    have hthr : isThrottledError e = false := by
      simp [isThrottledError, h429b, hgql]
    have hconnb : (e.code == some ("ECONNABORTED")) = false :=
      beq_eq_false_iff_ne.mpr hconn
    have htimeb : (e.code == some ("ETIMEDOUT")) = false :=
      beq_eq_false_iff_ne.mpr htime
    have h500b : decide (500 ≤ st) = false := by
      simpa using by omega
    have htr : isRetryableTransientError e = false := by
      simp [isRetryableTransientError, hconnb, htimeb, hst, h500b]
    exact ⟨hthr, htr,
      makeRequestGo_fatal e s 0 retries none [] (Nat.zero_le _) hthr htr⟩

theorem claim_C3_retry_classification_witness :
    (0 : ℕ) ≤ 3 ∧ isThrottledError transientErr = false ∧
    isRetryableTransientError transientErr = true ∧
    (makeRequestGo 3 [.failure transientErr] 0 none [] =
      makeRequestGo 3 [] 1 (some transientErr) [] ∧
    (makeRequestModel (List.replicate (3 + 1) (.failure transientErr) ++ []) 3).1 =
      some (.raised (some transientErr))) := by
  have h := (claim_C3_retry_classification transientErr [] 0 3 none []
    (by decide)).2.1 (by decide) (by decide)
  exact ⟨by decide, by decide, by decide, h⟩

theorem makeRequestGo_waits_mono (retries : ℕ) :
    ∀ (s : List Attempt) (rc : ℕ) (le : Option JsError) (ws : List ℕ),
      ws.Chain' (· ≤ ·) → (∀ w ∈ ws, w ≤ 2 ^ (rc + 3) * 1000) →
      ((makeRequestGo retries s rc le ws).2).Chain' (· ≤ ·) := by
  intro s
  induction s with
  | nil =>
    intro rc le ws hch _
    by_cases h : retries < rc <;> simp [makeRequestGo.eq_def, h, hch]
  | cons a rest ih =>
    intro rc le ws hch hb
    by_cases h : retries < rc
    · simp [makeRequestGo.eq_def, h, hch]
    · have hrc : rc ≤ retries := Nat.not_lt.mp h
      cases a with
      | success v => simp [makeRequestGo.eq_def, h, hch]
      | failure e =>
        cases hthr : isThrottledError e with
        | true =>
          rw [makeRequestGo_throttled e rest rc retries le ws hrc hthr]
          apply ih rc (some e)
          · rw [List.chain'_append]
            refine ⟨hch, List.chain'_singleton _, ?_⟩
            intro x hx y hy
            simp only [List.head?_cons, Option.mem_some_iff] at hy
            subst hy
            have hxmem : x ∈ ws := by
              rcases List.mem_getLast?_eq_getLast hx with ⟨hne, hxe⟩
              rw [hxe]
              exact List.getLast_mem hne
            exact hb x hxmem
          · intro w hw
            rcases List.mem_append.mp hw with h1 | h2
            · exact hb w h1
            · simp only [List.mem_singleton] at h2
              exact le_of_eq h2
        | false =>
          cases htr : isRetryableTransientError e with
          | true =>
            rw [makeRequestGo_transient e rest rc retries le ws hrc hthr htr]
            apply ih (rc + 1) (some e) ws hch
            intro w hw
            have h1 : 2 ^ (rc + 3) * 1000 ≤ 2 ^ (rc + 1 + 3) * 1000 :=
              Nat.mul_le_mul_right 1000
                (Nat.pow_le_pow_right (by norm_num) (by omega))
            exact le_trans (hb w hw) h1
          | false =>
            rw [makeRequestGo_fatal e rest rc retries le ws hrc hthr htr]
            exact hch

/-- C4: over any single `makeRequest` call, the trace of computed throttling
backoff waits is non-decreasing: consecutive throttled responses produce
equal waits (a throttled retry leaves the retry counter unchanged), and
interleaved transient retries only increase later waits, so each computed
wait is ≥ the previous one until the call returns. -/
theorem claim_C4_backoff_monotone (script : List Attempt) (retries : ℕ) :
    ((makeRequestModel script retries).2).Chain' (· ≤ ·) :=
  makeRequestGo_waits_mono retries script 0 none [] (by simp) (by simp)

/-! ### Bulk-operation result stream (C9) -/

theorem extractBulkProductIds_append (l1 l2 : List BulkResultLine) :
    extractBulkProductIds (l1 ++ l2) =
      extractBulkProductIds l1 ++ extractBulkProductIds l2 := by
  induction l1 with
  | nil => simp [extractBulkProductIds]
  | cons a rest ih =>
    cases a with
    | malformed => simpa [extractBulkProductIds] using ih
    | record o =>
      cases o with
      | none => simpa [extractBulkProductIds] using ih
      | some gid =>
        by_cases hg : gid = ""
        · simp [extractBulkProductIds, hg, ih]
        · simp [extractBulkProductIds, hg, ih]

theorem extractBulkProductIds_length (lines : List BulkResultLine) :
    (extractBulkProductIds lines).length = lines.countP hasTruthyIdField := by
  induction lines with
  | nil => simp [extractBulkProductIds]
  | cons a rest ih =>
    cases a with
    | malformed => simpa [extractBulkProductIds, List.countP_cons, hasTruthyIdField] using ih
    | record o =>
      cases o with
      | none => simpa [extractBulkProductIds, List.countP_cons, hasTruthyIdField] using ih
      | some gid =>
        by_cases hg : gid = ""
        · simp [extractBulkProductIds, hg, List.countP_cons, hasTruthyIdField, ih]
        · simp [extractBulkProductIds, hg, List.countP_cons, hasTruthyIdField, ih]

/-- C9 counterexample: the stream `demoBulkLines` holds two well-formed
records carrying an `id` field (one of them the empty string), yet only one
ID is extracted — `if (product.id)` skips a record whose `id` field is the
empty string (falsy), so "exactly one ID per well-formed record that has an
id field" fails. -/
theorem claim_C9_counterexample :
    demoBulkLines.countP hasIdField = 2 ∧
    extractBulkProductIds demoBulkLines = ["1"] ∧
    (extractBulkProductIds demoBulkLines).length = 1 :=
  ⟨by decide, by decide, by decide⟩

/-- C9 (amended): a line that fails to parse is skipped and never aborts the
batch (deleting a malformed line does not change the result), the extracted
list holds exactly one ID per well-formed record with a non-empty (JS-truthy)
`id` field, and each such record contributes the last `/`-segment of its id
in place. -/
theorem claim_C9_malformed_lines_skipped :
    (∀ l1 l2 : List BulkResultLine,
      extractBulkProductIds (l1 ++ .malformed :: l2) =
        extractBulkProductIds (l1 ++ l2)) ∧
    (∀ lines : List BulkResultLine,
      (extractBulkProductIds lines).length = lines.countP hasTruthyIdField) ∧
    (∀ (l1 : List BulkResultLine) (gid : String) (l2 : List BulkResultLine),
      gid ≠ "" →
      extractBulkProductIds (l1 ++ .record (some gid) :: l2) =
        extractBulkProductIds l1 ++ lastGidSegment gid :: extractBulkProductIds l2) := by
  refine ⟨?_, extractBulkProductIds_length, ?_⟩
  · intro l1 l2
    rw [extractBulkProductIds_append, extractBulkProductIds_append]
    simp [extractBulkProductIds]
  · intro l1 gid l2 hg
    rw [extractBulkProductIds_append]
    simp [extractBulkProductIds, hg]

theorem claim_C9_malformed_lines_skipped_witness :
    ("gid://shopify/Product/9" : String) ≠ "" ∧
    extractBulkProductIds ([] ++ .record (some ("gid://shopify/Product/9")) :: []) =
      extractBulkProductIds [] ++ lastGidSegment ("gid://shopify/Product/9") ::
        extractBulkProductIds [] :=
  ⟨by decide, claim_C9_malformed_lines_skipped.2.2 [] "gid://shopify/Product/9" []
    (by decide)⟩

/-! ### Channel mutation construction (C10) and unrecognized channels (C8) -/

theorem chunksOfAux_flatten (n : ℕ) :
    ∀ (fuel : ℕ) (l : List α), l.length ≤ fuel → (chunksOfAux n fuel l).flatten = l := by
  intro fuel
  induction fuel with
  | zero =>
    intro l hl
    have : l = [] := List.eq_nil_of_length_eq_zero (Nat.le_zero.mp hl)
    subst this
    simp [chunksOfAux]
  | succ fuel ih =>
    intro l hl
    cases l with
    | nil => simp [chunksOfAux]
    | cons a rest =>
      simp only [chunksOfAux, List.flatten_cons]
      rw [ih]
      · exact List.take_append_drop _ _
      · rw [List.length_drop]
        simp only [List.length_cons] at hl ⊢
        have : 1 ≤ max 1 n := le_max_left 1 n
        omega

theorem chunksOf_flatten (n : ℕ) (l : List α) : (chunksOf n l).flatten = l :=
  chunksOfAux_flatten n l.length l le_rfl

/-- C10: `updateProductSalesChannels` applies desired-state semantics: the
mutation list holds exactly one entry per publication-map entry — a publish
mutation when the channel is in the requested set and an unpublish mutation
when it is not — and the batch slicing dispatches exactly that list. -/
theorem claim_C10_desired_state (gid : String) (pubMap : List (String × String))
    (chans : List String) :
    (buildChannelMutations gid pubMap chans).length = pubMap.length ∧
    (∀ (k : ℕ) (name pid : String), pubMap[k]? = some (name, pid) →
      (buildChannelMutations gid pubMap chans)[k]? =
        some (if chans.contains name then ChMutation.publish gid pid
          else ChMutation.unpublish gid pid)) ∧
    (chunksOf 5 (buildChannelMutations gid pubMap chans)).flatten =
      buildChannelMutations gid pubMap chans := by
  refine ⟨by simp [buildChannelMutations], ?_, chunksOf_flatten 5 _⟩
  intro k name pid hk
  simp only [buildChannelMutations, List.getElem?_map, hk]
  rfl

theorem claim_C10_desired_state_witness :
    onePubMap[0]? = some ("Online Store", "gid://shopify/Publication/1") ∧
    (buildChannelMutations ("gid://shopify/Product/7") onePubMap ["TikTok"])[0]? =
      some (if List.contains ["TikTok"] "Online Store" then
        ChMutation.publish ("gid://shopify/Product/7") ("gid://shopify/Publication/1")
        else ChMutation.unpublish ("gid://shopify/Product/7") ("gid://shopify/Publication/1")) :=
  ⟨rfl, (claim_C10_desired_state ("gid://shopify/Product/7") onePubMap ["TikTok"]).2.1
    0 "Online Store" "gid://shopify/Publication/1" rfl⟩

theorem contains_filter_recognized (chans names : List String) (x : String)
    (hx : x ∈ names) :
    (chans.filter (fun c => names.contains c)).contains x = chans.contains x := by
  cases h : chans.contains x with
  | true =>
    have hmem : x ∈ chans := List.mem_of_elem_eq_true h
    exact List.elem_eq_true_of_mem
      (List.mem_filter.mpr ⟨hmem, List.elem_eq_true_of_mem hx⟩)
  | false =>
    cases h2 : (chans.filter (fun c => names.contains c)).contains x with
    | false => rfl
    | true =>
      have hmem := (List.mem_filter.mp (List.mem_of_elem_eq_true h2)).1
      have hc : chans.contains x = true := List.elem_eq_true_of_mem hmem
      rw [h] at hc
      exact absurd hc Bool.false_ne_true

theorem buildChannelMutations_filter (gid : String)
    (pubMap : List (String × String)) (chans : List String) :
    buildChannelMutations gid pubMap chans =
      buildChannelMutations gid pubMap
        (chans.filter (fun c => (pubMap.map Prod.fst).contains c)) := by
  unfold buildChannelMutations
  apply List.map_congr_left
  intro np hnp
  rw [contains_filter_recognized chans (pubMap.map Prod.fst) np.1
    (List.mem_map_of_mem Prod.fst hnp)]

/-- C8 counterexample: a channel set consisting only of a name absent from
the publication map makes `StoreService.bulkUpdateSalesChannels` raise
("No valid publication IDs found"), even though the scripted submission
itself would have succeeded — so an unrecognized channel name is not always
silently ignored on the bulk path. -/
theorem claim_C8_counterexample :
    storeBulkUpdateSalesChannelsModel
      (.ok { gqlErrors := none, operationId := some ("gid://shopify/BulkOperation/1") })
      onePubMap ["Nope"] =
      .error ("Failed to start bulk update operation: No valid publication IDs found for channels: Nope") ∧
    submitOutcomeOk
      (.ok { gqlErrors := none, operationId := some ("gid://shopify/BulkOperation/1") }) = true :=
  ⟨rfl, rfl⟩

/-- C8 (amended): an unrecognized channel name never affects the per-entity
path — `updateProductSalesChannels` behaves identically on the requested set
and on its recognized subset (every publication still gets its one
publish/unpublish mutation) — and on the bulk path unrecognized names are
ignored as long as at least one requested channel is recognized, in which
case success is decided by the submission alone; when no requested channel
is recognized, the bulk path raises instead of silently ignoring them. -/
theorem claim_C8_unrecognized_channels (env : ℕ → Except JsError GqlResp)
    (pubMap : List (String × String)) (productId : String) (chans : List String)
    (submit : Except JsError BulkSubmitResp) :
    (updateProductSalesChannelsModel env pubMap productId chans =
      updateProductSalesChannelsModel env pubMap productId
        (chans.filter (fun c => (pubMap.map Prod.fst).contains c))) ∧
    (chans.filter (fun c => (pubMap.map Prod.fst).contains c) ≠ [] →
      exceptIsOk (storeBulkUpdateSalesChannelsModel submit pubMap chans) =
        submitOutcomeOk submit) := by
  constructor
  · unfold updateProductSalesChannelsModel
    rw [buildChannelMutations_filter]
  · intro hne
    have hlen : ¬ ((chans.filter (fun c => (pubMap.map Prod.fst).contains c)).map
        (fun c => lookupStrD pubMap c (""))).length = 0 := by
      simpa using hne
    unfold storeBulkUpdateSalesChannelsModel
    rw [if_neg hlen]
    rcases submit with e | ⟨ge, oid⟩
    · rfl
    · cases ge <;> cases oid <;> rfl

theorem claim_C8_unrecognized_channels_witness :
    (["Online Store", "Nope"].filter
      (fun c => (onePubMap.map Prod.fst).contains c) ≠ []) ∧
    exceptIsOk (storeBulkUpdateSalesChannelsModel
      (.ok { gqlErrors := none, operationId := some ("gid://shopify/BulkOperation/1") })
      onePubMap ["Online Store", "Nope"]) =
      submitOutcomeOk
        (.ok { gqlErrors := none, operationId := some ("gid://shopify/BulkOperation/1") }) :=
  ⟨by decide,
    (claim_C8_unrecognized_channels (fun _ => .ok cleanResp) onePubMap ("7")
      ["Online Store", "Nope"]
      (.ok { gqlErrors := none, operationId := some ("gid://shopify/BulkOperation/1") })).2
      (by decide)⟩

/-! ### Orchestrator bookkeeping lemmas (towards C1, C5, C6, C7) -/

theorem recordStep_count (acc : OrchState × ℕ × ℕ) (pr : String × Except String Unit)
    (x : String) :
    (recordStep acc pr).1.updated.count x + (recordStep acc pr).1.failed.count x =
      acc.1.updated.count x + acc.1.failed.count x + List.count x [pr.1] := by
  rcases pr with ⟨id, r⟩
  cases r with
  | ok u =>
    simp [recordStep, List.count_append]
    ring
  | error msg =>
    simp only [recordStep]
    split <;> simp [List.count_append] <;> ring

theorem recordStep_fields (acc : OrchState × ℕ × ℕ) (pr : String × Except String Unit) :
    (recordStep acc pr).1.mc = acc.1.mc ∧
    (recordStep acc pr).1.cs = acc.1.cs ∧
    (recordStep acc pr).1.mcTrace = acc.1.mcTrace ∧
    (recordStep acc pr).1.rateTrace = acc.1.rateTrace ∧
    (recordStep acc pr).1.lastRate = acc.1.lastRate ∧
    (recordStep acc pr).1.callIdx = acc.1.callIdx := by
  rcases pr with ⟨id, r⟩
  cases r with
  | ok u => exact ⟨rfl, rfl, rfl, rfl, rfl, rfl⟩
  | error msg =>
    simp only [recordStep]
    split <;> exact ⟨rfl, rfl, rfl, rfl, rfl, rfl⟩

theorem foldl_recordStep_count (x : String) :
    ∀ (results : List (String × Except String Unit)) (acc : OrchState × ℕ × ℕ),
      (results.foldl recordStep acc).1.updated.count x +
        (results.foldl recordStep acc).1.failed.count x =
      acc.1.updated.count x + acc.1.failed.count x + (results.map Prod.fst).count x := by
  intro results
  induction results with
  | nil => intro acc; simp
  | cons pr rest ih =>
    intro acc
    rw [List.foldl_cons, ih, recordStep_count]
    simp [List.count_cons, List.count_append]
    ring

theorem foldl_recordStep_fields :
    ∀ (results : List (String × Except String Unit)) (acc : OrchState × ℕ × ℕ),
      (results.foldl recordStep acc).1.mc = acc.1.mc ∧
      (results.foldl recordStep acc).1.cs = acc.1.cs ∧
      (results.foldl recordStep acc).1.mcTrace = acc.1.mcTrace ∧
      (results.foldl recordStep acc).1.rateTrace = acc.1.rateTrace ∧
      (results.foldl recordStep acc).1.lastRate = acc.1.lastRate := by
  intro results
  induction results with
  | nil => intro acc; exact ⟨rfl, rfl, rfl, rfl, rfl⟩
  | cons pr rest ih =>
    intro acc
    rw [List.foldl_cons]
    have h1 := recordStep_fields acc pr
    have h2 := ih (recordStep acc pr)
    exact ⟨h2.1.trans h1.1, h2.2.1.trans h1.2.1, h2.2.2.1.trans h1.2.2.1,
      h2.2.2.2.1.trans h1.2.2.2.1, h2.2.2.2.2.trans h1.2.2.2.2.1⟩

theorem foldl_recordStep_all_ok :
    ∀ (results : List (String × Except String Unit)),
      (∀ pr ∈ results, pr.2 = Except.ok ()) →
      ∀ (acc : OrchState × ℕ × ℕ),
        (results.foldl recordStep acc).1.updated =
          acc.1.updated ++ results.map Prod.fst ∧
        (results.foldl recordStep acc).1.failed = acc.1.failed ∧
        (results.foldl recordStep acc).1.errors = acc.1.errors ∧
        (results.foldl recordStep acc).1.cf = acc.1.cf := by
  intro results
  induction results with
  | nil => intro _ acc; simp
  | cons pr rest ih =>
    intro hok acc
    have hpr : pr.2 = Except.ok () := hok pr (by simp)
    have hone : recordStep acc pr =
        ({ acc.1 with updated := acc.1.updated ++ [pr.1] }, acc.2.1 + 1, acc.2.2) := by
      rcases pr with ⟨id, r⟩
      simp only at hpr
      rw [hpr]
      rfl
    rw [List.foldl_cons, hone]
    have := ih (fun q hq => hok q (by simp [hq]))
      ({ acc.1 with updated := acc.1.updated ++ [pr.1] }, acc.2.1 + 1, acc.2.2)
    simpa using this

theorem enum_results_map_fst (update : ℕ → String → Except String Unit)
    (base : ℕ) (chunk : List String) :
    (chunk.enum.map (fun p => (p.2, update (base + p.1) p.2))).map Prod.fst = chunk := by
  rw [List.map_map]
  exact List.enum_map_snd chunk

theorem processChunk_count (update : ℕ → String → Except String Unit)
    (st : OrchState) (chunk : List String) (x : String) :
    (processChunk update st chunk).1.updated.count x +
      (processChunk update st chunk).1.failed.count x =
    st.updated.count x + st.failed.count x + chunk.count x := by
  unfold processChunk
  rw [foldl_recordStep_count, enum_results_map_fst]

theorem processChunk_fields (update : ℕ → String → Except String Unit)
    (st : OrchState) (chunk : List String) :
    (processChunk update st chunk).1.mc = st.mc ∧
    (processChunk update st chunk).1.cs = st.cs ∧
    (processChunk update st chunk).1.mcTrace = st.mcTrace ∧
    (processChunk update st chunk).1.rateTrace = st.rateTrace ∧
    (processChunk update st chunk).1.lastRate = st.lastRate := by
  unfold processChunk
  exact foldl_recordStep_fields _ _

theorem processChunk_all_ok (update : ℕ → String → Except String Unit)
    (st : OrchState) (chunk : List String)
    (h : ∀ i id, update i id = Except.ok ()) :
    (processChunk update st chunk).1.updated = st.updated ++ chunk ∧
    (processChunk update st chunk).1.failed = st.failed ∧
    (processChunk update st chunk).1.errors = st.errors ∧
    (processChunk update st chunk).1.cf = st.cf := by
  unfold processChunk
  have hok : ∀ pr ∈ chunk.enum.map (fun p => (p.2, update (st.callIdx + p.1) p.2)),
      pr.2 = Except.ok () := by
    intro pr hpr
    rcases List.mem_map.mp hpr with ⟨p, _, rfl⟩
    exact h _ _
  have := foldl_recordStep_all_ok _ hok
    ({ st with callIdx := st.callIdx + chunk.length }, 0, 0)
  rw [enum_results_map_fst] at this
  exact this

theorem foldl_chunkStep_count (update : ℕ → String → Except String Unit) (x : String) :
    ∀ (chunks : List (List String)) (acc : OrchState × ℕ × ℕ),
      ((chunks.foldl (fun acc chunk =>
          let r := processChunk update acc.1 chunk
          (r.1, acc.2.1 + r.2.1, acc.2.2 + r.2.2)) acc).1.updated.count x +
        (chunks.foldl (fun acc chunk =>
          let r := processChunk update acc.1 chunk
          (r.1, acc.2.1 + r.2.1, acc.2.2 + r.2.2)) acc).1.failed.count x) =
      acc.1.updated.count x + acc.1.failed.count x + chunks.flatten.count x := by
  intro chunks
  induction chunks with
  | nil => intro acc; simp
  | cons c rest ih =>
    intro acc
    rw [List.foldl_cons, ih]
    simp only [List.flatten_cons, List.count_append]
    have := processChunk_count update acc.1 c x
    omega

theorem foldl_chunkStep_fields (update : ℕ → String → Except String Unit) :
    ∀ (chunks : List (List String)) (acc : OrchState × ℕ × ℕ),
      ((chunks.foldl (fun acc chunk =>
          let r := processChunk update acc.1 chunk
          (r.1, acc.2.1 + r.2.1, acc.2.2 + r.2.2)) acc).1.mc = acc.1.mc ∧
        (chunks.foldl (fun acc chunk =>
          let r := processChunk update acc.1 chunk
          (r.1, acc.2.1 + r.2.1, acc.2.2 + r.2.2)) acc).1.mcTrace = acc.1.mcTrace ∧
        (chunks.foldl (fun acc chunk =>
          let r := processChunk update acc.1 chunk
          (r.1, acc.2.1 + r.2.1, acc.2.2 + r.2.2)) acc).1.rateTrace = acc.1.rateTrace) := by
  intro chunks
  induction chunks with
  | nil => intro acc; exact ⟨rfl, rfl, rfl⟩
  | cons c rest ih =>
    intro acc
    rw [List.foldl_cons]
    have h1 := processChunk_fields update acc.1 c
    have h2 := ih (let r := processChunk update acc.1 c
      (r.1, acc.2.1 + r.2.1, acc.2.2 + r.2.2))
    exact ⟨h2.1.trans h1.1, h2.2.1.trans h1.2.2.1, h2.2.2.trans h1.2.2.2.1⟩

theorem foldl_chunkStep_all_ok (update : ℕ → String → Except String Unit)
    (h : ∀ i id, update i id = Except.ok ()) :
    ∀ (chunks : List (List String)) (acc : OrchState × ℕ × ℕ),
      ((chunks.foldl (fun acc chunk =>
          let r := processChunk update acc.1 chunk
          (r.1, acc.2.1 + r.2.1, acc.2.2 + r.2.2)) acc).1.updated =
        acc.1.updated ++ chunks.flatten ∧
        (chunks.foldl (fun acc chunk =>
          let r := processChunk update acc.1 chunk
          (r.1, acc.2.1 + r.2.1, acc.2.2 + r.2.2)) acc).1.failed = acc.1.failed ∧
        (chunks.foldl (fun acc chunk =>
          let r := processChunk update acc.1 chunk
          (r.1, acc.2.1 + r.2.1, acc.2.2 + r.2.2)) acc).1.errors = acc.1.errors) := by
  intro chunks
  induction chunks with
  | nil => intro acc; simp
  | cons c rest ih =>
    intro acc
    rw [List.foldl_cons]
    have h1 := processChunk_all_ok update acc.1 c h
    have h2 := ih (let r := processChunk update acc.1 c
      (r.1, acc.2.1 + r.2.1, acc.2.2 + r.2.2))
    refine ⟨?_, h2.2.1.trans h1.2.1, h2.2.2.trans h1.2.2.1⟩
    rw [h2.1]
    simp only [h1.1, List.flatten_cons, List.append_assoc]

theorem processBatch_count (update : ℕ → String → Except String Unit)
    (st : OrchState) (batch : List String) (x : String) :
    (processBatch update st batch).1.updated.count x +
      (processBatch update st batch).1.failed.count x =
    st.updated.count x + st.failed.count x + batch.count x := by
  unfold processBatch
  rw [foldl_chunkStep_count]
  rw [chunksOf_flatten]

theorem processBatch_fields (update : ℕ → String → Except String Unit)
    (st : OrchState) (batch : List String) :
    (processBatch update st batch).1.mc = st.mc ∧
    (processBatch update st batch).1.mcTrace = st.mcTrace ∧
    (processBatch update st batch).1.rateTrace = st.rateTrace := by
  unfold processBatch
  exact foldl_chunkStep_fields update _ _

theorem processBatch_all_ok (update : ℕ → String → Except String Unit)
    (st : OrchState) (batch : List String)
    (h : ∀ i id, update i id = Except.ok ()) :
    (processBatch update st batch).1.updated = st.updated ++ batch ∧
    (processBatch update st batch).1.failed = st.failed ∧
    (processBatch update st batch).1.errors = st.errors := by
  unfold processBatch
  have := foldl_chunkStep_all_ok update h (chunksOf st.mc batch) (st, 0, 0)
  rwa [chunksOf_flatten] at this

theorem adjustConcurrency_fields (st : OrchState) :
    (adjustConcurrency st).updated = st.updated ∧
    (adjustConcurrency st).failed = st.failed ∧
    (adjustConcurrency st).errors = st.errors ∧
    (adjustConcurrency st).mcTrace = st.mcTrace ∧
    (adjustConcurrency st).rateTrace = st.rateTrace ∧
    (adjustConcurrency st).callIdx = st.callIdx := by
  unfold adjustConcurrency
  split
  · exact ⟨rfl, rfl, rfl, rfl, rfl, rfl⟩
  · split
    · exact ⟨rfl, rfl, rfl, rfl, rfl, rfl⟩
    · exact ⟨rfl, rfl, rfl, rfl, rfl, rfl⟩

theorem adjustConcurrency_mc_cases (st : OrchState) :
    (adjustConcurrency st).mc = st.mc ∨
    (adjustConcurrency st).mc = max 1 (st.mc - 1) ∨
    ((adjustConcurrency st).mc = st.mc + 1 ∧ st.mc < 3) := by
  unfold adjustConcurrency
  split
  · exact Or.inr (Or.inl rfl)
  · split
    case isTrue h => exact Or.inr (Or.inr ⟨rfl, h.2.2⟩)
    case isFalse h => exact Or.inl rfl

theorem updateStreaks_fields (st : OrchState) (rate : ℕ × ℕ) :
    (updateStreaks st rate).updated = st.updated ∧
    (updateStreaks st rate).failed = st.failed ∧
    (updateStreaks st rate).errors = st.errors ∧
    (updateStreaks st rate).mc = st.mc ∧
    (updateStreaks st rate).mcTrace = st.mcTrace ∧
    (updateStreaks st rate).rateTrace = st.rateTrace := by
  unfold updateStreaks
  split
  · exact ⟨rfl, rfl, rfl, rfl, rfl, rfl⟩
  · split
    · exact ⟨rfl, rfl, rfl, rfl, rfl, rfl⟩
    · exact ⟨rfl, rfl, rfl, rfl, rfl, rfl⟩

theorem batchStep_count (update : ℕ → String → Except String Unit)
    (st : OrchState) (batch : List String) (x : String) :
    (batchStep update st batch).updated.count x +
      (batchStep update st batch).failed.count x =
    st.updated.count x + st.failed.count x + batch.count x := by
  unfold batchStep
  rw [(updateStreaks_fields _ _).1, (updateStreaks_fields _ _).2.1]
  have hpb := processBatch_count update
    { adjustConcurrency st with
      mcTrace := (adjustConcurrency st).mcTrace ++ [(adjustConcurrency st).mc] }
    batch x
  simp only at hpb ⊢
  rw [hpb]
  have ha := adjustConcurrency_fields st
  rw [ha.1, ha.2.1]

theorem batchStep_mc_trace (update : ℕ → String → Except String Unit)
    (st : OrchState) (batch : List String) :
    (batchStep update st batch).mc = (adjustConcurrency st).mc ∧
    (batchStep update st batch).mcTrace = st.mcTrace ++ [(adjustConcurrency st).mc] := by
  unfold batchStep
  rw [(updateStreaks_fields _ _).2.2.2.1, (updateStreaks_fields _ _).2.2.2.2.1]
  have hpb := processBatch_fields update
    { adjustConcurrency st with
      mcTrace := (adjustConcurrency st).mcTrace ++ [(adjustConcurrency st).mc] }
    batch
  simp only at hpb ⊢
  rw [hpb.1, hpb.2.1]
  exact ⟨rfl, by rw [(adjustConcurrency_fields st).2.2.2.1]⟩

theorem batchStep_all_ok (update : ℕ → String → Except String Unit)
    (st : OrchState) (batch : List String)
    (h : ∀ i id, update i id = Except.ok ()) :
    (batchStep update st batch).updated = st.updated ++ batch ∧
    (batchStep update st batch).failed = st.failed ∧
    (batchStep update st batch).errors = st.errors := by
  unfold batchStep
  rw [(updateStreaks_fields _ _).1, (updateStreaks_fields _ _).2.1,
    (updateStreaks_fields _ _).2.2.1]
  have hpb := processBatch_all_ok update
    { adjustConcurrency st with
      mcTrace := (adjustConcurrency st).mcTrace ++ [(adjustConcurrency st).mc] }
    batch h
  simp only at hpb ⊢
  rw [hpb.1, hpb.2.1, hpb.2.2]
  have ha := adjustConcurrency_fields st
  rw [ha.1, ha.2.1, ha.2.2.1]
  exact ⟨rfl, rfl, rfl⟩

theorem foldl_batchStep_count (update : ℕ → String → Except String Unit) (x : String) :
    ∀ (batches : List (List String)) (st : OrchState),
      (batches.foldl (batchStep update) st).updated.count x +
        (batches.foldl (batchStep update) st).failed.count x =
      st.updated.count x + st.failed.count x + batches.flatten.count x := by
  intro batches
  induction batches with
  | nil => intro st; simp
  | cons b rest ih =>
    intro st
    rw [List.foldl_cons, ih]
    simp only [List.flatten_cons, List.count_append]
    have := batchStep_count update st b x
    omega

theorem foldl_batchStep_all_ok (update : ℕ → String → Except String Unit)
    (h : ∀ i id, update i id = Except.ok ()) :
    ∀ (batches : List (List String)) (st : OrchState),
      (batches.foldl (batchStep update) st).updated = st.updated ++ batches.flatten ∧
      (batches.foldl (batchStep update) st).failed = st.failed ∧
      (batches.foldl (batchStep update) st).errors = st.errors := by
  intro batches
  induction batches with
  | nil => intro st; simp
  | cons b rest ih =>
    intro st
    rw [List.foldl_cons]
    have h1 := batchStep_all_ok update st b h
    have h2 := ih (batchStep update st b)
    refine ⟨?_, h2.2.1.trans h1.2.1, h2.2.2.trans h1.2.2⟩
    rw [h2.1, h1.1]
    simp [List.append_assoc]

theorem runOrch_count (g : Bool) (update : ℕ → String → Except String Unit)
    (ids : List String) (x : String) :
    (runOrch g update ids).updatedProducts.count x +
      (runOrch g update ids).failedProducts.count x = ids.count x := by
  unfold runOrch
  simp only
  rw [foldl_batchStep_count, chunksOf_flatten]
  simp [initOrchState]

theorem runOrch_all_ok (g : Bool) (update : ℕ → String → Except String Unit)
    (ids : List String) (h : ∀ i id, update i id = Except.ok ()) :
    (runOrch g update ids).updatedProducts = ids ∧
    (runOrch g update ids).failedProducts = [] := by
  unfold runOrch
  simp only
  have := foldl_batchStep_all_ok update h (chunksOf 10 ids) initOrchState
  rw [chunksOf_flatten] at this
  exact ⟨by rw [this.1]; simp [initOrchState], by rw [this.2.1]; rfl⟩

theorem partitionSpec_runOrch (g : Bool) (update : ℕ → String → Except String Unit)
    (ids : List String) (h : ids.Nodup) : PartitionSpec ids (runOrch g update ids) := by
  have hc : ∀ x, (runOrch g update ids).updatedProducts.count x +
      (runOrch g update ids).failedProducts.count x = ids.count x :=
    runOrch_count g update ids
  have hle : ∀ x, ids.count x ≤ 1 := List.nodup_iff_count_le_one.mp h
  refine ⟨?_, ?_, ?_⟩
  · intro x
    constructor
    · intro hx
      have hpos : 0 < ids.count x := by
        have := hc x
        rcases hx with h1 | h1
        · have := List.count_pos_iff.mpr h1
          omega
        · have := List.count_pos_iff.mpr h1
          omega
      exact List.count_pos_iff.mp hpos
    · intro hx
      have h1 : 0 < ids.count x := List.count_pos_iff.mpr hx
      have h2 := hc x
      by_cases hcu : 0 < (runOrch g update ids).updatedProducts.count x
      · exact Or.inl (List.count_pos_iff.mp hcu)
      · refine Or.inr (List.count_pos_iff.mp ?_)
        omega
  · rintro x ⟨h1, h2⟩
    have hcu := List.count_pos_iff.mpr h1
    have hcf := List.count_pos_iff.mpr h2
    have h3 := hc x
    have h4 := hle x
    omega
  · intro x hx
    have h1 := List.count_pos_iff.mpr hx
    have h3 := hc x
    have h4 := hle x
    omega

/-- C1: for every input id list (a set of entity ids: no duplicates) and any
remote behaviour, both `ProductService.bulkUpdateSalesChannels` and
`ProductService.bulkUpdateGoogleAttributes` return an outcome whose
`updatedProducts` and `failedProducts` cover exactly the input ids, are
disjoint, and contain each input id exactly once overall. -/
theorem claim_C1_partition (envS : ℕ → ℕ → Except JsError GqlResp)
    (pubMap : List (String × String)) (chans : List String)
    (envG : ℕ → ℕ → Except JsError GqlResp) (attrs : GoogleProductAttributes)
    (ids : List String) (h : ids.Nodup) :
    PartitionSpec ids (bulkUpdateSalesChannelsModel envS pubMap chans ids) ∧
    PartitionSpec ids (bulkUpdateGoogleAttributesModel envG attrs ids) :=
  ⟨partitionSpec_runOrch false _ ids h, partitionSpec_runOrch true _ ids h⟩

theorem claim_C1_partition_witness :
    (["a", "b", "c"] : List String).Nodup ∧
    (PartitionSpec ["a", "b", "c"]
        (bulkUpdateSalesChannelsModel allOkEnv onePubMap ["Online Store"]
          ["a", "b", "c"]) ∧
      PartitionSpec ["a", "b", "c"]
        (bulkUpdateGoogleAttributesModel allOkEnv blankAttrs ["a", "b", "c"])) :=
  ⟨by decide, claim_C1_partition allOkEnv onePubMap ["Online Store"] allOkEnv
    blankAttrs ["a", "b", "c"] (by decide)⟩

theorem foldl_batchStep_trace_append (update : ℕ → String → Except String Unit) :
    ∀ (batches : List (List String)) (st : OrchState),
      ∃ t, (batches.foldl (batchStep update) st).mcTrace = st.mcTrace ++ t := by
  intro batches
  induction batches with
  | nil => intro st; exact ⟨[], by simp⟩
  | cons b rest ih =>
    intro st
    rw [List.foldl_cons]
    rcases ih (batchStep update st b) with ⟨t, ht⟩
    refine ⟨[(adjustConcurrency st).mc] ++ t, ?_⟩
    rw [ht, (batchStep_mc_trace update st b).2]
    simp [List.append_assoc]

theorem foldl_batchStep_mc_inv (update : ℕ → String → Except String Unit) :
    ∀ (batches : List (List String)) (st : OrchState),
      1 ≤ st.mc → st.mc ≤ 3 →
      (∀ m ∈ st.mcTrace, 1 ≤ m ∧ m ≤ 3) →
      st.mcTrace.Chain' (fun a b => b = a ∨ b = max 1 (a - 1) ∨ (b = a + 1 ∧ a < 3)) →
      (st.mcTrace = [] ∨ st.mcTrace.getLast? = some st.mc) →
      (1 ≤ (batches.foldl (batchStep update) st).mc ∧
        (batches.foldl (batchStep update) st).mc ≤ 3 ∧
        (∀ m ∈ (batches.foldl (batchStep update) st).mcTrace, 1 ≤ m ∧ m ≤ 3) ∧
        (batches.foldl (batchStep update) st).mcTrace.Chain'
          (fun a b => b = a ∨ b = max 1 (a - 1) ∨ (b = a + 1 ∧ a < 3)) ∧
        ((batches.foldl (batchStep update) st).mcTrace = [] ∨
          (batches.foldl (batchStep update) st).mcTrace.getLast? =
            some (batches.foldl (batchStep update) st).mc)) := by
  intro batches
  induction batches with
  | nil =>
    intro st h1 h2 h3 h4 h5
    exact ⟨h1, h2, h3, h4, h5⟩
  | cons b rest ih =>
    intro st h1 h2 h3 h4 h5
    rw [List.foldl_cons]
    have hmt := batchStep_mc_trace update st b
    have hcases := adjustConcurrency_mc_cases st
    have hb1 : 1 ≤ (adjustConcurrency st).mc := by
      rcases hcases with h | h | ⟨h, _⟩ <;> omega
    have hb2 : (adjustConcurrency st).mc ≤ 3 := by
      rcases hcases with h | h | ⟨h, hlt⟩ <;> omega
    apply ih (batchStep update st b)
    · rw [hmt.1]; exact hb1
    · rw [hmt.1]; exact hb2
    · rw [hmt.2]
      intro m hm
      rcases List.mem_append.mp hm with hm1 | hm1
      · exact h3 m hm1
      · simp only [List.mem_singleton] at hm1
        subst hm1
        exact ⟨hb1, hb2⟩
    · rw [hmt.2, List.chain'_append]
      refine ⟨h4, List.chain'_singleton _, ?_⟩
      intro x hx y hy
      simp only [List.head?_cons, Option.mem_some_iff] at hy
      subst hy
      rcases h5 with h5 | h5
      · rw [h5] at hx
        simp at hx
      · rw [h5] at hx
        simp only [Option.mem_some_iff] at hx
        subst hx
        rcases hcases with h | h | ⟨h, hlt⟩
        · exact Or.inl h
        · exact Or.inr (Or.inl h)
        · exact Or.inr (Or.inr ⟨h, hlt⟩)
    · rw [hmt.2, hmt.1]
      right
      exact List.getLast?_concat _

theorem runOrch_mcSpec (g : Bool) (update : ℕ → String → Except String Unit)
    (ids : List String) : McSpec (runOrch g update ids) := by
  unfold McSpec runOrch
  simp only
  cases hb : chunksOf 10 ids with
  | nil => simp [initOrchState]
  | cons b rest =>
    rw [List.foldl_cons]
    have hadj : adjustConcurrency initOrchState = initOrchState := rfl
    have hmt := batchStep_mc_trace update initOrchState b
    rw [hadj] at hmt
    have hinv := foldl_batchStep_mc_inv update rest (batchStep update initOrchState b)
      (by rw [hmt.1]; exact one_le_two)
      (by rw [hmt.1]; norm_num [initOrchState])
      (by
        rw [hmt.2]
        intro m hm
        simp only [initOrchState, List.nil_append, List.mem_singleton] at hm
        subst hm
        exact ⟨one_le_two, by norm_num⟩)
      (by
        rw [hmt.2]
        exact List.chain'_singleton _)
      (by
        rw [hmt.2, hmt.1]
        right
        simp [initOrchState])
    refine ⟨hinv.2.2.1, ?_, hinv.2.2.2.1⟩
    rcases foldl_batchStep_trace_append update rest (batchStep update initOrchState b)
      with ⟨t, ht⟩
    rw [ht, hmt.2]
    intro m hm
    simp only [initOrchState, List.nil_append, List.cons_append, List.head?_cons,
      Option.mem_some_iff] at hm
    exact hm.symm

/-- C5 counterexample: running the bulk orchestrator over eleven ids where
exactly the first two per-entity calls fail with a "Throttled" GraphQL error
drops `maxConcurrent` from 2 to 1 at the second batch, although only one
batch ran before the decrease and its success rate 8/10 was neither below
0.5 nor a full success: the failure counter is advanced once per throttled
per-product failure, so a single batch can trigger the decrease.  This
refutes "decreased ... after 2 or more consecutive low-success batches". -/
theorem claim_C5_counterexample :
    (bulkUpdateSalesChannelsModel twoThrottledEnv onePubMap ["Online Store"]
      elevenIds).mcTrace = [2, 1] ∧
    (bulkUpdateSalesChannelsModel twoThrottledEnv onePubMap ["Online Store"]
      elevenIds).rateTrace = [(8, 10), (1, 1)] ∧
    rateLtHalf (8, 10) = false ∧ rateEqOne (8, 10) = false :=
  ⟨by decide, by decide, by decide, by decide⟩

/-- C5 (amended): throughout any run of either bulk orchestrator,
`maxConcurrent` never leaves `[1, 3]`; the first batch runs at the initial
value 2; and between consecutive batches it either stays, is decreased by 1
(with a floor of 1) — which happens when the consecutive-failure counter has
reached 2, a counter fed both by per-product throttled failures (possibly
several in one batch) and by batches with success rate below 0.5 — or is
increased by 1, which happens only while below the cap 3 (after the success
counter reaches 3 with the previous batch rate above 0.9). -/
theorem claim_C5_concurrency_bounds (envS : ℕ → ℕ → Except JsError GqlResp)
    (pubMap : List (String × String)) (chans : List String)
    (envG : ℕ → ℕ → Except JsError GqlResp) (attrs : GoogleProductAttributes)
    (ids : List String) :
    McSpec (bulkUpdateSalesChannelsModel envS pubMap chans ids) ∧
    McSpec (bulkUpdateGoogleAttributesModel envG attrs ids) :=
  ⟨runOrch_mcSpec false _ ids, runOrch_mcSpec true _ ids⟩

/-- C6: for every entity id and every `AttributeSet` whose values are all
blank, `updateGoogleAttributes` builds zero mutations, issues zero remote
calls, and returns `true`; consequently `bulkUpdateGoogleAttributes` on any
entity list with an all-blank attribute set fails nothing and reports every
input id updated, whatever the remote would have answered. -/
theorem claim_C6_blank_attributes (env : ℕ → Except JsError GqlResp)
    (entityId : String) (a : GoogleProductAttributes)
    (envG : ℕ → ℕ → Except JsError GqlResp) (ids : List String)
    (h1 : a.category = "") (h2 : a.color = "") (h3 : a.size = "")
    (h4 : a.gender = "") (h5 : a.ageGroup = "") :
    buildGoogleMutations entityId a = [] ∧
    updateGoogleAttributesModel env entityId a = (Except.ok true, 0) ∧
    (bulkUpdateGoogleAttributesModel envG a ids).failedProducts = [] ∧
    (bulkUpdateGoogleAttributesModel envG a ids).updatedProducts = ids := by
  have hmf : ∀ v, buildGoogleMetafields v a = [] := by
    intro v
    simp [buildGoogleMetafields, attrEntries, h1, h2, h3, h4, h5]
  have hmut : ∀ eid, buildGoogleMutations eid a = [] := by
    intro eid
    simp [buildGoogleMutations, hmf]
  have hupd : ∀ (env2 : ℕ → Except JsError GqlResp) (eid : String),
      updateGoogleAttributesModel env2 eid a = (Except.ok true, 0) := by
    intro env2 eid
    simp [updateGoogleAttributesModel, hmut]
  have hok : ∀ (i : ℕ) (id : String),
      (fun i id => match (updateGoogleAttributesModel (envG i) id a).1 with
        | .ok _ => Except.ok ()
        | .error m => Except.error m) i id = Except.ok () := by
    intro i id
    simp [hupd]
  have hall := runOrch_all_ok true _ ids hok
  exact ⟨hmut entityId, hupd env entityId, hall.2, hall.1⟩

theorem claim_C6_blank_attributes_witness :
    blankAttrs.category = "" ∧ blankAttrs.color = "" ∧ blankAttrs.size = "" ∧
    blankAttrs.gender = "" ∧ blankAttrs.ageGroup = "" ∧
    (buildGoogleMutations ("123") blankAttrs = [] ∧
      updateGoogleAttributesModel (fun _ => .ok cleanResp) "123" blankAttrs =
        (Except.ok true, 0) ∧
      (bulkUpdateGoogleAttributesModel allOkEnv blankAttrs ["1"]).failedProducts = [] ∧
      (bulkUpdateGoogleAttributesModel allOkEnv blankAttrs ["1"]).updatedProducts = ["1"]) :=
  ⟨rfl, rfl, rfl, rfl, rfl,
    claim_C6_blank_attributes (fun _ => .ok cleanResp) "123" blankAttrs allOkEnv
      ["1"] rfl rfl rfl rfl rfl⟩

/-! ### Error summary grouping (C7) -/

theorem bump_lookupNat (e x : String) :
    ∀ m : List (String × ℕ),
      lookupNat (bump m e) x = lookupNat m x + (if x = e then 1 else 0) := by
  intro m
  induction m with
  | nil =>
    by_cases h : x = e
    · subst h; simp [bump, lookupNat]
    · have h2 : ¬ e = x := fun hh => h hh.symm
      simp [bump, lookupNat, h, h2]
  | cons kv rest ih =>
    by_cases h1 : kv.1 = e
    · by_cases h2 : kv.1 = x
      · have hxe : x = e := h2 ▸ h1
        simp [bump, lookupNat, h1, h2, hxe]
      · have hxe : ¬ x = e := fun hh => h2 (hh ▸ h1)
        have hex : ¬ e = x := fun hh => hxe hh.symm
        simp [bump, lookupNat, h1, h2, hxe, hex]
    · by_cases h2 : kv.1 = x
      · have hxe : ¬ x = e := fun hh => h1 (hh ▸ h2)
        simp [bump, lookupNat, h1, h2, hxe]
      · simp [bump, lookupNat, h1, h2, ih]

theorem mem_keys_bump (e x : String) :
    ∀ m : List (String × ℕ),
      x ∈ (bump m e).map Prod.fst → x ∈ m.map Prod.fst ∨ x = e := by
  intro m
  induction m with
  | nil => intro h; simp [bump] at h; exact Or.inr h
  | cons kv rest ih =>
    intro h
    by_cases h1 : kv.1 = e
    · subst h1
      simp only [bump, beq_self_eq_true, if_pos, List.map_cons, List.mem_cons] at h
      rcases h with h | h
      · exact Or.inl (by simp [h])
      · exact Or.inl (by simp [h])
    · have h1b : (kv.1 == e) = false := beq_eq_false_iff_ne.mpr h1
      simp only [bump, h1b, Bool.false_eq_true, if_neg, not_false_iff,
        List.map_cons, List.mem_cons] at h
      rcases h with h | h
      · exact Or.inl (by simp [h])
      · rcases ih h with h2 | h2
        · exact Or.inl (by simp [h2])
        · exact Or.inr h2

theorem bump_keys_nodup (e : String) :
    ∀ m : List (String × ℕ),
      (m.map Prod.fst).Nodup → ((bump m e).map Prod.fst).Nodup := by
  intro m
  induction m with
  | nil => intro _; simp [bump]
  | cons kv rest ih =>
    intro h
    simp only [List.map_cons, List.nodup_cons] at h
    by_cases h1 : kv.1 = e
    · subst h1
      simp only [bump, beq_self_eq_true, if_pos, List.map_cons]
      exact List.nodup_cons.mpr h
    · have h1b : (kv.1 == e) = false := beq_eq_false_iff_ne.mpr h1
      simp only [bump, h1b, Bool.false_eq_true, if_neg, not_false_iff, List.map_cons]
      refine List.nodup_cons.mpr ⟨?_, ih h.2⟩
      intro hmem
      rcases mem_keys_bump e kv.1 rest hmem with h2 | h2
      · exact h.1 h2
      · exact h1 h2

theorem bump_pos (e : String) :
    ∀ m : List (String × ℕ),
      (∀ p ∈ m, 0 < p.2) → ∀ p ∈ bump m e, 0 < p.2 := by
  intro m
  induction m with
  | nil =>
    intro _ p hp
    simp [bump] at hp
    simp [hp]
  | cons kv rest ih =>
    intro h p hp
    by_cases h1 : kv.1 = e
    · subst h1
      simp only [bump, beq_self_eq_true, if_pos, List.mem_cons] at hp
      rcases hp with hp | hp
      · simp [hp]
      · exact h p (by simp [hp])
    · have h1b : (kv.1 == e) = false := beq_eq_false_iff_ne.mpr h1
      simp only [bump, h1b, Bool.false_eq_true, if_neg, not_false_iff,
        List.mem_cons] at hp
      rcases hp with hp | hp
      · exact h p (by simp [hp])
      · exact ih (fun q hq => h q (by simp [hq])) p hp

theorem groupCounts_keys_nodup (ms : List String) :
    ((groupCounts ms).map Prod.fst).Nodup := by
  suffices h : ∀ acc : List (String × ℕ), (acc.map Prod.fst).Nodup →
      ((ms.foldl bump acc).map Prod.fst).Nodup by
    exact h [] (by simp)
  induction ms with
  | nil => intro acc hacc; exact hacc
  | cons msg rest ih =>
    intro acc hacc
    rw [List.foldl_cons]
    exact ih (bump acc msg) (bump_keys_nodup msg acc hacc)

theorem groupCounts_pos (ms : List String) :
    ∀ p ∈ groupCounts ms, 0 < p.2 := by
  suffices h : ∀ acc : List (String × ℕ), (∀ p ∈ acc, 0 < p.2) →
      ∀ p ∈ ms.foldl bump acc, 0 < p.2 by
    exact h [] (by simp)
  induction ms with
  | nil => intro acc hacc; exact hacc
  | cons msg rest ih =>
    intro acc hacc
    rw [List.foldl_cons]
    exact ih (bump acc msg) (bump_pos msg acc hacc)

theorem lookupNat_groupCounts (ms : List String) (x : String) :
    lookupNat (groupCounts ms) x = ms.count x := by
  suffices h : ∀ acc : List (String × ℕ),
      lookupNat (ms.foldl bump acc) x = lookupNat acc x + ms.count x by
    simpa [groupCounts, lookupNat] using h []
  induction ms with
  | nil => intro acc; simp
  | cons msg rest ih =>
    intro acc
    rw [List.foldl_cons, ih, bump_lookupNat]
    rw [List.count_cons]
    by_cases h : x = msg
    · simp only [h, beq_self_eq_true, if_pos]
      omega
    · have hb : (msg == x) = false := beq_eq_false_iff_ne.mpr (fun hh => h hh.symm)
      simp [h, hb]

theorem mem_assoc_iff_lookupNat :
    ∀ m : List (String × ℕ), (m.map Prod.fst).Nodup → (∀ p ∈ m, 0 < p.2) →
      ∀ (e : String) (c : ℕ), ((e, c) ∈ m ↔ 0 < c ∧ lookupNat m e = c) := by
  intro m
  induction m with
  | nil =>
    intro _ _ e c
    simp only [List.not_mem_nil, false_iff, lookupNat]
    rintro ⟨hc, h0⟩
    omega
  | cons kv rest ih =>
    intro hnd hpos e c
    simp only [List.map_cons, List.nodup_cons] at hnd
    by_cases h1 : kv.1 = e
    · subst h1
      constructor
      · intro hm
        rcases List.mem_cons.mp hm with hm | hm
        · have hsnd : kv.2 = c := by rw [← hm]
          refine ⟨?_, ?_⟩
          · rw [← hsnd]
            exact hpos kv (by simp)
          · simp [lookupNat, hsnd]
        · exfalso
          exact hnd.1 (List.mem_map.mpr ⟨(kv.1, c), hm, rfl⟩)
      · rintro ⟨hc, hl⟩
        simp only [lookupNat, beq_self_eq_true, if_pos] at hl
        exact List.mem_cons.mpr (Or.inl (by rw [← hl]))
    · have h1b : (kv.1 == e) = false := beq_eq_false_iff_ne.mpr h1
      have hmem : ((e, c) ∈ kv :: rest) ↔ (e, c) ∈ rest := by
        simp only [List.mem_cons, or_iff_right_iff_imp]
        intro hh
        exact absurd (congrArg Prod.fst hh.symm) h1
      rw [hmem]
      simp only [lookupNat, h1b, Bool.false_eq_true, if_neg, not_false_iff]
      exact ih hnd.2 (fun q hq => hpos q (by simp [hq])) e c

theorem errorReportSpec_runOrch (g : Bool) (update : ℕ → String → Except String Unit)
    (ids : List String) : ErrorReportSpec g (runOrch g update ids) := by
  unfold ErrorReportSpec runOrch
  simp only
  set st := (chunksOf 10 ids).foldl (batchStep update) initOrchState with hst
  have hem : st.failed.foldl
      (fun m id => bump m (lookupStrD st.errors id ("Unknown error"))) [] =
      groupCounts (st.failed.map (fun id => lookupStrD st.errors id ("Unknown error"))) := by
    rw [groupCounts, List.foldl_map]
  refine ⟨?_, ?_, ?_, ?_⟩
  · exact List.isEmpty_iff
  · trivial
  · rw [hem]
    exact groupCounts_keys_nodup _
  · intro e c
    rw [hem,
      mem_assoc_iff_lookupNat _ (groupCounts_keys_nodup _) (groupCounts_pos _) e c,
      lookupNat_groupCounts]
    constructor
    · rintro ⟨hc, hl⟩
      exact ⟨hc, hl.symm⟩
    · rintro ⟨hc, hl⟩
      exact ⟨hc, hl.symm⟩

/-- C7: for every run of either bulk orchestrator, `success` is true exactly
when `failedProducts` is empty, the returned message is built from the
rendered error summary whenever failures exist, and the summary groups the
failed products by distinct recorded error message with the exact count for
each message. -/
theorem claim_C7_failure_reporting (envS : ℕ → ℕ → Except JsError GqlResp)
    (pubMap : List (String × String)) (chans : List String)
    (envG : ℕ → ℕ → Except JsError GqlResp) (attrs : GoogleProductAttributes)
    (ids : List String) :
    ErrorReportSpec false (bulkUpdateSalesChannelsModel envS pubMap chans ids) ∧
    ErrorReportSpec true (bulkUpdateGoogleAttributesModel envG attrs ids) :=
  ⟨errorReportSpec_runOrch false _ ids, errorReportSpec_runOrch true _ ids⟩
